import Mathlib

/-!
Shallow embedding of the authentication flow of `django-demo-app`
(`src/authentication/models.py`, `src/authentication/forms.py`,
`src/authentication/views.py`, `src/demo_project/settings.py`).

Time is modelled in minutes as `Nat`.  Randomness (the six draws of
`random.choices(string.digits, k=6)`) is modelled by a function
`Fin 6 → Fin 10` supplied by the environment; the mail collaborator and
the framework-level checks (password validation, RFC e-mail syntax,
username uniqueness, credential check) are modelled as oracles, exactly
as the spec treats them (external collaborators).
-/

namespace DjangoDemo

abbrev UserId := Nat
abbrev Time := Nat

/-- Setting `ALLOWED_EMAIL_DOMAIN` (src/demo_project/settings.py line 158). -/
def ALLOWED_EMAIL_DOMAIN : String := "sydney.edu.pl"

/-- The `User` model (src/authentication/models.py): Django row id,
`email`, `username`, `is_active` (Django builtin) and the custom
`is_verified` flag. -/
structure User where
  id : UserId
  email : String
  username : String
  is_active : Bool
  is_verified : Bool
deriving DecidableEq

/-- The `EmailVerification` model (src/authentication/models.py).
`rid` is the row id, `user_id` the `ForeignKey(User, on_delete=CASCADE)`,
`expires_at` is `Option` because a Django `DateTimeField` is `None`
until `save` fills it; `code` defaults to the empty string until `save`
fills it (a `CharField` with no default). -/
structure EmailVerification where
  rid : Nat
  user_id : UserId
  code : String
  created_at : Time
  expires_at : Option Time
  is_used : Bool
deriving DecidableEq

/-- Python's `string.digits` constant. -/
def string_digits : String := "0123456789"

/-- Method `EmailVerification.generate_code`:
`''.join(random.choices(string.digits, k=6))`.  The six independent
draws are the argument `pick`; each draw indexes `string.digits`
(the default `'0'` of `getD` is unreachable since `pick i < 10`). -/
def EmailVerification.generate_code (pick : Fin 6 → Fin 10) : String :=
  String.mk ((List.finRange 6).map (fun i => string_digits.toList.getD (pick i).val '0'))

/-- Method `EmailVerification.save` (the overridden body): generate a code if
`self.code` is falsy, set `expires_at = now + 30 minutes` if falsy; the
framework `super().save()` then persists the row.  `gen` is the value
`generate_code` would return for this call's random draws. -/
def EmailVerification.save (now : Time) (gen : String) (r : EmailVerification) :
    EmailVerification :=
  { r with
    code := if r.code = "" then gen else r.code,
    expires_at := match r.expires_at with
      | none => some (now + 30)
      | some t => some t }

/-- Method `EmailVerification.is_valid`:
`not self.is_used and self.expires_at > timezone.now()`.
(A persisted record always has `expires_at` set; the `none` arm is
unreachable for stored rows.) -/
def EmailVerification.is_valid (now : Time) (r : EmailVerification) : Bool :=
  !r.is_used && (match r.expires_at with
    | some t => decide (now < t)
    | none => false)

/-- Python `str.split(sep)` for a one-character separator, computed on
the character list (`"".split` gives `['']`, hence the `[[]]` base case). -/
def splitOnChar (sep : Char) : List Char → List (List Char)
  | [] => [[]]
  | c :: cs =>
    match splitOnChar sep cs with
    | [] => [[c]]
    | x :: xs => if c = sep then [] :: x :: xs else (c :: x) :: xs

/-- Domain computed by `SignUpForm.clean_email`
(src/authentication/forms.py): `email.split('@')[1] if '@' in email else ''`. -/
def email_domain (email : String) : String :=
  if email.toList.contains '@' then
    String.mk (((splitOnChar '@' email.toList).get? 1).getD [])
  else ""

/-- Predicate for `SignUpForm.clean_email`: it passes iff the computed domain equals
`settings.ALLOWED_EMAIL_DOMAIN` (otherwise it raises `ValidationError`). -/
def clean_email_ok (email : String) : Bool :=
  email_domain email = ALLOWED_EMAIL_DOMAIN

/-- Validation of `VerificationForm`: a required `CharField` with
`max_length=6, min_length=6` and `clean_code` requiring `code.isdigit()`. -/
def verification_form_ok (code : String) : Bool :=
  code.length = 6 && code.toList.all Char.isDigit

/-- The per-client session (`request.session` plus the authentication
state installed by `django.contrib.auth.login`): the key
`pending_user_id`, and the authenticated user, if any. -/
structure Session where
  pending_user_id : Option UserId
  auth_user_id : Option UserId
deriving DecidableEq

/-- The persistent store plus the current client session and clock.
`next_id` / `next_rid` model the auto-increment primary keys. -/
structure SystemState where
  users : List User
  records : List EmailVerification
  session : Session
  now : Time
  next_id : UserId
  next_rid : Nat
deriving DecidableEq

/-- Outcome of one request, named after the user-visible message or
redirect the view produces. -/
inductive AuthMsg where
  | RedirectHome
  | ValidationError
  | SignupSuccess
  | MailSendFailed
  | NoPendingVerification
  | InvalidVerificationSession
  | VerifyFormInvalid
  | VerifiedSuccess
  | InvalidOrExpiredCode
  | InvalidCredentials
  | NotVerified
  | LoginSuccess
deriving DecidableEq

/-- The Django ORM query
`EmailVerification.objects.filter(user=user, code=code, is_used=False)`:
`Meta.ordering = ['-created_at']` orders by `created_at` descending, so
`.first()` returns a row of maximal `created_at` among the matches.
`pickMostRecent` keeps the earliest-inserted row on a `created_at` tie
(the tie order is unspecified in the source). -/
def pickMostRecent : List EmailVerification → Option EmailVerification
  | [] => none
  | r :: rs =>
    match pickMostRecent rs with
    | none => some r
    | some b => if b.created_at > r.created_at then some b else some r

/-- The record-lookup step of `verify_view`. -/
def findActive (records : List EmailVerification) (uid : UserId) (code : String) :
    Option EmailVerification :=
  pickMostRecent (records.filter
    (fun r => r.user_id == uid && r.code == code && !r.is_used))

/-- Effect of `user.delete()`: removes the user row, and — because
`EmailVerification.user` is `ForeignKey(User, on_delete=CASCADE)` —
every verification record owned by it. -/
def delete_user (uid : UserId) (s : SystemState) : SystemState :=
  { s with
    users := s.users.filter (fun u => u.id != uid),
    records := s.records.filter (fun r => r.user_id != uid) }

/-- Whether the `SignUpForm` as a whole validates against state `s`:
`clean_email` passes, the `unique=True` e-mail constraint is respected,
and `framework_ok` stands for the framework-level checks that are out of
scope (RFC e-mail syntax, username uniqueness, password validation). -/
def signup_form_valid (email : String) (framework_ok : Bool) (s : SystemState) : Bool :=
  clean_email_ok email && s.users.all (fun u => u.email != email) && framework_ok

/-- The part of `signup_view` that runs after the form validates and
before `send_mail`: `form.save(commit=False)`, `user.is_active = False`,
`user.save()`, then `EmailVerification.objects.create(user=user)`
(whose `save` fills code and expiry).  Both rows are persisted before
the mail is attempted (there is no enclosing transaction).
Returns the state at the moment `send_mail` is called, and the new
user's id. -/
def signup_create (email username : String) (pick : Fin 6 → Fin 10) (s : SystemState) :
    SystemState × UserId :=
  let user : User :=
    { id := s.next_id, email := email, username := username,
      is_active := false, is_verified := false }
  let v0 : EmailVerification :=
    { rid := s.next_rid, user_id := user.id, code := "",
      created_at := s.now, expires_at := none, is_used := false }
  let v := v0.save s.now (EmailVerification.generate_code pick)
  ({ s with
      users := s.users ++ [user],
      records := s.records ++ [v],
      next_id := s.next_id + 1,
      next_rid := s.next_rid + 1 }, user.id)

/-- View `signup_view`, POST branch.  `framework_ok` and `mail_ok` are the
oracles for the framework form checks and for `send_mail` (`mail_ok =
false` means `send_mail` raised). -/
def signup_step (email username : String) (framework_ok : Bool)
    (pick : Fin 6 → Fin 10) (mail_ok : Bool) (s : SystemState) :
    SystemState × AuthMsg :=
  if s.session.auth_user_id.isSome then (s, .RedirectHome)
  else if signup_form_valid email framework_ok s then
    let created := signup_create email username pick s
    if mail_ok then
      ({ created.1 with
          session := { created.1.session with pending_user_id := some created.2 } },
        .SignupSuccess)
    else
      (delete_user created.2 created.1, .MailSendFailed)
  else (s, .ValidationError)

/-- View `verify_view`, POST branch.  `gen` is the (unused, since the record
is already persisted) code that `save` would generate on this call. -/
def verify_step (code : String) (gen : String) (s : SystemState) :
    SystemState × AuthMsg :=
  match s.session.pending_user_id with
  | none => (s, .NoPendingVerification)
  | some uid =>
    match s.users.find? (fun u => u.id == uid) with
    | none => (s, .InvalidVerificationSession)
    | some user =>
      if verification_form_ok code then
        match findActive s.records uid code with
        | some v =>
          if v.is_valid s.now then
            let v' := EmailVerification.save s.now gen { v with is_used := true }
            ({ s with
                records := s.records.map (fun r => if r.rid == v.rid then v' else r),
                users := s.users.map (fun u =>
                  if u.id == user.id then { u with is_active := true, is_verified := true }
                  else u),
                session := { pending_user_id := none, auth_user_id := some user.id } },
              .VerifiedSuccess)
          else (s, .InvalidOrExpiredCode)
        | none => (s, .InvalidOrExpiredCode)
      else (s, .VerifyFormInvalid)

/-- View `login_view`, POST branch.  `auth_result` is the credential-check
collaborator (`form.get_user()` when `form.is_valid()`): `some uid` when
the submitted e-mail/password authenticate the user with that id. -/
def login_step (auth_result : Option UserId) (s : SystemState) :
    SystemState × AuthMsg :=
  if s.session.auth_user_id.isSome then (s, .RedirectHome)
  else
    match auth_result with
    | none => (s, .InvalidCredentials)
    | some uid =>
      match s.users.find? (fun u => u.id == uid) with
      | none => (s, .InvalidCredentials)
      | some user =>
        if !user.is_verified then
          ({ s with session := { s.session with pending_user_id := some uid } },
            .NotVerified)
        else
          ({ s with session := { s.session with auth_user_id := some uid } },
            .LoginSuccess)

/-- View `logout_view`: Django's `logout` flushes the whole session. -/
def logout_step (s : SystemState) : SystemState :=
  { s with session := { pending_user_id := none, auth_user_id := none } }

/-- The empty initial state. -/
def init : SystemState :=
  { users := [], records := [], session := { pending_user_id := none, auth_user_id := none },
    now := 0, next_id := 0, next_rid := 0 }

/-- One request (or the passage of time) as a step relation. -/
inductive Step : SystemState → SystemState → Prop where
  | signup (email username : String) (framework_ok : Bool) (pick : Fin 6 → Fin 10)
      (mail_ok : Bool) (s : SystemState) :
      Step s (signup_step email username framework_ok pick mail_ok s).1
  | verify (code gen : String) (s : SystemState) :
      Step s (verify_step code gen s).1
  | login (auth_result : Option UserId) (s : SystemState) :
      Step s (login_step auth_result s).1
  | logout (s : SystemState) : Step s (logout_step s)
  | tick (d : Time) (s : SystemState) : Step s { s with now := s.now + d }

/-- States reachable from the empty store. -/
inductive Reachable : SystemState → Prop where
  | init : Reachable init
  | step {s s' : SystemState} : Reachable s → Step s s' → Reachable s'

/-- Every user in the store has `is_active = is_verified`. -/
def accountsConsistent (s : SystemState) : Bool :=
  s.users.all (fun u => u.is_active == u.is_verified)

/-- A fixed random source: every draw picks digit `0`. -/
def pick0 : Fin 6 → Fin 10 := fun _ => 0

/-- State after one successful sign-up (of `alice`) from the empty store. -/
def sSigned : SystemState :=
  (signup_step "a@sydney.edu.pl" "alice" true pick0 true init).1

/-- The account row created by that sign-up. -/
def user0 : User :=
  { id := 0, email := "a@sydney.edu.pl", username := "alice",
    is_active := false, is_verified := false }

/-- The verification record issued by that sign-up. -/
def rec0 : EmailVerification :=
  { rid := 0, user_id := 0, code := "000000", created_at := 0,
    expires_at := some 30, is_used := false }

/-- Everything after the first occurrence of `sep`. -/
def listAfterFirst (sep : Char) : List Char → List Char
  | [] => []
  | c :: cs => if c = sep then cs else listAfterFirst sep cs

/-- Spec-side reading of "the submitted email's domain, defined as the
substring after '@'": everything after the first `'@'` (to be compared
with the code-side `email_domain`, which takes `split('@')[1]`, i.e.
only up to the second `'@'`).  Modelled from the spec: src contains no
such function; this is the claim's own definition of "domain". -/
def domain_after_at (email : String) : String :=
  if email.toList.contains '@' then String.mk (listAfterFirst '@' email.toList) else ""

/-! ## Helper lemmas -/

/-- A nonempty list always has a most recent element. -/
theorem pickMostRecent_ne_none (r : EmailVerification) (rs : List EmailVerification) :
    pickMostRecent (r :: rs) ≠ none := by
  rw [pickMostRecent]
  cases pickMostRecent rs with
  | none => simp
  | some b => by_cases h : b.created_at > r.created_at <;> simp [h]

/-- The picked record is an element of the list. -/
theorem pickMostRecent_mem {l : List EmailVerification} {b : EmailVerification}
    (h : pickMostRecent l = some b) : b ∈ l := by
  induction l with
  | nil => simp [pickMostRecent] at h
  | cons r rs ih =>
    cases hrec : pickMostRecent rs with
    | none =>
      simp only [pickMostRecent, hrec, Option.some.injEq] at h
      exact h ▸ List.mem_cons_self r rs
    | some b2 =>
      simp only [pickMostRecent, hrec] at h
      by_cases hgt : b2.created_at > r.created_at
      · rw [if_pos hgt] at h
        injection h with h
        exact List.mem_cons_of_mem _ (ih (h ▸ hrec))
      · rw [if_neg hgt] at h
        injection h with h
        exact h ▸ List.mem_cons_self r rs

/-- The picked record has maximal `created_at` in the list. -/
theorem pickMostRecent_max_aux (l : List EmailVerification) :
    ∀ b, pickMostRecent l = some b → ∀ x ∈ l, x.created_at ≤ b.created_at := by
  induction l with
  | nil => intro b h; simp [pickMostRecent] at h
  | cons r rs ih =>
    intro b h x hx
    cases hrec : pickMostRecent rs with
    | none =>
      cases rs with
      | nil =>
        simp only [pickMostRecent, Option.some.injEq] at h
        rcases List.mem_singleton.mp hx with rfl
        exact h ▸ Nat.le_refl _
      | cons r2 rs2 => exact absurd hrec (pickMostRecent_ne_none r2 rs2)
    | some b2 =>
      simp only [pickMostRecent, hrec] at h
      by_cases hgt : b2.created_at > r.created_at
      · rw [if_pos hgt] at h
        injection h with h
        subst h
        rcases List.mem_cons.mp hx with rfl | hx2
        · exact Nat.le_of_lt hgt
        · exact ih b2 hrec x hx2
      · rw [if_neg hgt] at h
        injection h with h
        subst h
        rcases List.mem_cons.mp hx with rfl | hx2
        · exact Nat.le_refl _
        · exact Nat.le_trans (ih b2 hrec x hx2) (Nat.not_lt.mp hgt)

/-- Version of `pickMostRecent_max_aux` with implicit arguments. -/
theorem pickMostRecent_max {l : List EmailVerification} {b : EmailVerification}
    (h : pickMostRecent l = some b) :
    ∀ x ∈ l, x.created_at ≤ b.created_at :=
  pickMostRecent_max_aux l b h

/-- A record returned by `findActive` belongs to the store, belongs to
the account, carries the submitted code, and is unused. -/
theorem findActive_some_spec {recs : List EmailVerification} {uid : UserId}
    {code : String} {v : EmailVerification}
    (h : findActive recs uid code = some v) :
    v ∈ recs ∧ v.user_id = uid ∧ v.code = code ∧ v.is_used = false := by
  have hmem := pickMostRecent_mem h
  rw [List.mem_filter] at hmem
  obtain ⟨hv, hp⟩ := hmem
  simp only [Bool.and_eq_true, beq_iff_eq, Bool.not_eq_true'] at hp
  exact ⟨hv, hp.1.1, hp.1.2, hp.2⟩

/-- The record returned by `findActive` is most recent among the
matching unused records. -/
theorem findActive_max {recs : List EmailVerification} {uid : UserId}
    {code : String} {v : EmailVerification}
    (h : findActive recs uid code = some v) :
    ∀ r ∈ recs, r.user_id = uid → r.code = code → r.is_used = false →
      r.created_at ≤ v.created_at := by
  intro r hr h1 h2 h3
  apply pickMostRecent_max h
  rw [List.mem_filter]
  refine ⟨hr, ?_⟩
  simp [h1, h2, h3]

/-- If some unused record of the account carries the code, `findActive`
returns a record. -/
theorem findActive_isSome {recs : List EmailVerification} {uid : UserId}
    {code : String} {v : EmailVerification}
    (hv : v ∈ recs) (h1 : v.user_id = uid) (h2 : v.code = code)
    (h3 : v.is_used = false) :
    ∃ w, findActive recs uid code = some w := by
  have hmem : v ∈ recs.filter (fun r => r.user_id == uid && r.code == code && !r.is_used) := by
    rw [List.mem_filter]
    refine ⟨hv, ?_⟩
    simp [h1, h2, h3]
  unfold findActive
  cases hl : recs.filter (fun r => r.user_id == uid && r.code == code && !r.is_used) with
  | nil => rw [hl] at hmem; simp at hmem
  | cons r rs =>
    cases hfa : pickMostRecent (r :: rs) with
    | none => exact absurd hfa (pickMostRecent_ne_none r rs)
    | some w => exact ⟨w, rfl⟩

/-- Every entry of `string.digits`, and the default `'0'`, is a digit. -/
theorem string_digits_getD_isDigit (n : Nat) :
    (string_digits.toList.getD n '0').isDigit = true := by
  rcases Nat.lt_or_ge n 10 with h | h
  · interval_cases n <;> decide
  · rw [List.getD_eq_default]
    · decide
    · simpa [string_digits] using h

/-! ## Claim theorems -/

/-- C8: every code returned by `generate_code` is a string of exactly 6
characters, each of which is a decimal digit.  (`generate_code` is a
pure total function of its random draws, so it has no side effects and
no error conditions.) -/
theorem C8_generate_code_six_digits (pick : Fin 6 → Fin 10) :
    (EmailVerification.generate_code pick).length = 6 ∧
    ∀ c ∈ (EmailVerification.generate_code pick).toList, c.isDigit = true := by
  constructor
  · show ((List.finRange 6).map _).length = 6
    rw [List.length_map, List.length_finRange]
  · intro c hc
    have hc2 : c ∈ (List.finRange 6).map
        (fun i => string_digits.toList.getD (pick i).val '0') := hc
    rw [List.mem_map] at hc2
    obtain ⟨i, _, rfl⟩ := hc2
    exact string_digits_getD_isDigit _

/-- C10: marking a verification record used modifies only its `used`
flag: `save` generates a code and fills the expiry only when they are
unset, so for an already-persisted record (nonempty code, expiry set)
the code, the creation timestamp, the expiry timestamp, the owner and
the row id are unchanged by `is_used = True; save()`. -/
theorem C10_mark_used_frame (r : EmailVerification) (now : Time) (gen : String)
    (hcode : r.code ≠ "") (hexp : r.expires_at ≠ none) :
    (EmailVerification.save now gen { r with is_used := true }).code = r.code ∧
    (EmailVerification.save now gen { r with is_used := true }).created_at = r.created_at ∧
    (EmailVerification.save now gen { r with is_used := true }).expires_at = r.expires_at ∧
    (EmailVerification.save now gen { r with is_used := true }).user_id = r.user_id ∧
    (EmailVerification.save now gen { r with is_used := true }).rid = r.rid ∧
    (EmailVerification.save now gen { r with is_used := true }).is_used = true := by
  obtain ⟨t, ht⟩ := Option.ne_none_iff_exists'.mp hexp
  simp [EmailVerification.save, hcode, ht]

/-- Witness for C10 at the concrete record issued by `sSigned`. -/
theorem C10_mark_used_frame_witness :
    (EmailVerification.save 5 "999999" { rec0 with is_used := true }).code = rec0.code ∧
    (EmailVerification.save 5 "999999" { rec0 with is_used := true }).created_at = rec0.created_at ∧
    (EmailVerification.save 5 "999999" { rec0 with is_used := true }).expires_at = rec0.expires_at ∧
    (EmailVerification.save 5 "999999" { rec0 with is_used := true }).user_id = rec0.user_id ∧
    (EmailVerification.save 5 "999999" { rec0 with is_used := true }).rid = rec0.rid ∧
    (EmailVerification.save 5 "999999" { rec0 with is_used := true }).is_used = true :=
  C10_mark_used_frame rec0 5 "999999" (by decide) (by decide)

/-- C4: a login request whose credentials authenticate a user with
`is_verified = false` yields `NotVerified`, sets the session's pending
identifier to that user's id, issues no new verification record, and
does not authenticate the session (and leaves the user rows unchanged). -/
theorem C4_login_unverified (s : SystemState) (uid : UserId) (user : User)
    (hanon : s.session.auth_user_id = none)
    (hauth : s.users.find? (fun u => u.id == uid) = some user)
    (hver : user.is_verified = false) :
    (login_step (some uid) s).2 = .NotVerified ∧
    (login_step (some uid) s).1.session.pending_user_id = some uid ∧
    (login_step (some uid) s).1.records = s.records ∧
    (login_step (some uid) s).1.session.auth_user_id = none ∧
    (login_step (some uid) s).1.users = s.users := by
  have hstep : login_step (some uid) s =
      ({ s with session := { s.session with pending_user_id := some uid } },
        .NotVerified) := by
    unfold login_step
    rw [hanon]
    simp [hauth, hver]
  rw [hstep]
  simp [hanon]

/-- Witness for C4: logging in as the (unverified) freshly signed-up
`alice` with correct credentials. -/
theorem C4_login_unverified_witness :
    (login_step (some 0) sSigned).2 = .NotVerified ∧
    (login_step (some 0) sSigned).1.session.pending_user_id = some 0 ∧
    (login_step (some 0) sSigned).1.records = sSigned.records ∧
    (login_step (some 0) sSigned).1.session.auth_user_id = none ∧
    (login_step (some 0) sSigned).1.users = sSigned.users :=
  C4_login_unverified sSigned 0 user0 (by decide) (by decide) (by decide)

/-- C2: if the sign-up form validated and `send_mail` raises, the newly
created account is deleted before the response: afterwards the user rows
are exactly as before (so no account with that email exists), the
verification store is as before, the session's pending identifier is not
set, and the caller is told to retry (`MailSendFailed`).  The freshness
hypotheses `hid`/`hrid` say the auto-increment id about to be assigned
is not already in use. -/
theorem C2_mail_failure_rollback (s : SystemState) (email username : String)
    (pick : Fin 6 → Fin 10)
    (hanon : s.session.auth_user_id = none)
    (hpend : s.session.pending_user_id = none)
    (hform : signup_form_valid email true s = true)
    (hid : ∀ u ∈ s.users, u.id ≠ s.next_id)
    (hrid : ∀ r ∈ s.records, r.user_id ≠ s.next_id) :
    (signup_step email username true pick false s).1.users = s.users ∧
    (∀ u ∈ (signup_step email username true pick false s).1.users, u.email ≠ email) ∧
    (signup_step email username true pick false s).1.records = s.records ∧
    (signup_step email username true pick false s).1.session.pending_user_id = none ∧
    (signup_step email username true pick false s).2 = .MailSendFailed := by
  have hstep : signup_step email username true pick false s =
      (delete_user s.next_id (signup_create email username pick s).1, .MailSendFailed) := by
    unfold signup_step
    rw [hanon]
    simp only [Option.isSome_none, Bool.false_eq_true, if_false, hform, if_true]
    rfl
  have husers : (delete_user s.next_id (signup_create email username pick s).1).users
      = s.users := by
    show ((s.users ++ [_]).filter fun u => u.id != s.next_id) = s.users
    rw [List.filter_append]
    have h1 : s.users.filter (fun u => u.id != s.next_id) = s.users :=
      List.filter_eq_self.mpr (fun u hu => by simpa using hid u hu)
    simp [h1]
  have hrecs : (delete_user s.next_id (signup_create email username pick s).1).records
      = s.records := by
    show ((s.records ++ [_]).filter fun r => r.user_id != s.next_id) = s.records
    rw [List.filter_append]
    have h1 : s.records.filter (fun r => r.user_id != s.next_id) = s.records :=
      List.filter_eq_self.mpr (fun r hr => by simpa using hrid r hr)
    simp [h1, EmailVerification.save]
  have hmail : ∀ u ∈ s.users, u.email ≠ email := by
    intro u hu
    have h2 := (Bool.and_eq_true _ _).mp ((Bool.and_eq_true _ _).mp hform).1
    have h3 := (List.all_eq_true.mp h2.2) u hu
    simpa using h3
  refine ⟨?_, ?_, ?_, ?_, ?_⟩
  · rw [hstep]; exact husers
  · rw [hstep]; rw [husers]; exact hmail
  · rw [hstep]; exact hrecs
  · rw [hstep]
    show s.session.pending_user_id = none
    exact hpend
  · rw [hstep]

/-- Witness for C2: `alice` signs up from the empty store and the mail
send fails; no account remains and the pending identifier stays unset. -/
theorem C2_mail_failure_rollback_witness :
    (signup_step "a@sydney.edu.pl" "alice" true pick0 false init).1.users = init.users ∧
    (∀ u ∈ (signup_step "a@sydney.edu.pl" "alice" true pick0 false init).1.users,
      u.email ≠ "a@sydney.edu.pl") ∧
    (signup_step "a@sydney.edu.pl" "alice" true pick0 false init).1.records = init.records ∧
    (signup_step "a@sydney.edu.pl" "alice" true pick0 false init).1.session.pending_user_id
      = none ∧
    (signup_step "a@sydney.edu.pl" "alice" true pick0 false init).2 = .MailSendFailed :=
  C2_mail_failure_rollback init "a@sydney.edu.pl" "alice" pick0 (by decide) (by decide)
    (by decide) (by intro u hu; simp [init] at hu) (by intro r hr; simp [init] at hr)

/-- C3 counterexample: the e-mail address `"@sydney.edu.pl@"@evil.com`
(a quoted local part, accepted by the framework's RFC validator) has
neither the substring after its first `'@'` nor the substring after its
last `'@'` equal to the allowed domain, yet sign-up accepts it and
creates the account: `clean_email` tests `split('@')[1]`, the segment
between the first and the second `'@'`, not "the substring after `'@'`". -/
theorem C3_counterexample :
    (signup_step "\"@sydney.edu.pl@\"@evil.com" "eve" true pick0 true init).2
      = .SignupSuccess ∧
    (⟨0, "\"@sydney.edu.pl@\"@evil.com", "eve", false, false⟩ : User)
      ∈ (signup_step "\"@sydney.edu.pl@\"@evil.com" "eve" true pick0 true init).1.users ∧
    domain_after_at "\"@sydney.edu.pl@\"@evil.com" ≠ ALLOWED_EMAIL_DOMAIN := by
  refine ⟨by decide, by decide, by decide⟩

/-- C3 (amended): sign-up creates an account only when the submitted
email's domain — `split('@')[1]`, the segment between the first and the
second `'@'`, which coincides with the substring after `'@'` whenever
the address contains exactly one `'@'` — equals the single allowed
domain, compared case-sensitively; an email containing no `'@'` is
treated as having the empty-string domain and is always rejected; on
any domain mismatch a `ValidationError` is raised and no account is
created (the state is unchanged). -/
theorem C3_domain_gate (s : SystemState) (email username : String)
    (framework_ok : Bool) (pick : Fin 6 → Fin 10) (mail_ok : Bool)
    (hanon : s.session.auth_user_id = none)
    (hdom : email_domain email ≠ ALLOWED_EMAIL_DOMAIN) :
    signup_step email username framework_ok pick mail_ok s = (s, .ValidationError) ∧
    (email.toList.contains '@' = false → email_domain email = "") := by
  constructor
  · have hclean : clean_email_ok email = false := by
      simp [clean_email_ok, hdom]
    unfold signup_step
    rw [hanon]
    simp [signup_form_valid, hclean]
  · intro hno
    unfold email_domain
    rw [hno]
    simp

/-- Witness for C3 (amended): a `gmail.com` address is rejected and
creates nothing. -/
theorem C3_domain_gate_witness :
    (signup_step "user@gmail.com" "mallory" true pick0 true init
      = (init, .ValidationError)) ∧
    (("user@gmail.com").toList.contains '@' = false →
      email_domain "user@gmail.com" = "") :=
  C3_domain_gate init "user@gmail.com" "mallory" true pick0 true (by decide) (by decide)

/-- On the success path, `verify_view` marks the found record used (the
`save` call regenerates nothing, since the persisted record has a
nonempty code and a set expiry), activates and verifies the user, clears
the pending identifier and logs the user in. -/
theorem verify_step_success_eq (s : SystemState) (uid : UserId) (user : User)
    (code gen : String) (v : EmailVerification)
    (hp : s.session.pending_user_id = some uid)
    (hu : s.users.find? (fun u => u.id == uid) = some user)
    (hform : verification_form_ok code = true)
    (hfind : findActive s.records uid code = some v)
    (hvalid : v.is_valid s.now = true) :
    verify_step code gen s =
      ({ s with
          records := s.records.map (fun r =>
            if r.rid == v.rid then { v with is_used := true } else r),
          users := s.users.map (fun u =>
            if u.id == user.id then { u with is_active := true, is_verified := true }
            else u),
          session := { pending_user_id := none, auth_user_id := some user.id } },
        .VerifiedSuccess) := by
  obtain ⟨hmem, huid, hcode, hused⟩ := findActive_some_spec hfind
  have hcode6 : v.code ≠ "" := by
    rw [hcode]
    intro h
    rw [h] at hform
    simp [verification_form_ok] at hform
  obtain ⟨t, ht⟩ : ∃ t, v.expires_at = some t := by
    rcases hexp : v.expires_at with _ | t
    · rw [EmailVerification.is_valid, hexp] at hvalid
      simp at hvalid
    · exact ⟨t, rfl⟩
  have hsave : EmailVerification.save s.now gen { v with is_used := true }
      = { v with is_used := true } := by
    simp [EmailVerification.save, hcode6, ht]
  unfold verify_step
  rw [hp]
  simp only [hu, hform, if_true, hfind, hvalid, hsave]

/-- C1 (amended): for a session with a pending account identifier,
submitting a correct code whose selected record is unused and unexpired
marks exactly that record used, sets the account's active and verified
flags to true, clears the pending identifier, and authenticates the
session; a second verification attempt with the same code afterwards
fails with `NoPendingVerification` (the pending identifier was cleared
by the success). -/
theorem C1_verify_success (s : SystemState) (uid : UserId) (user : User)
    (code gen : String) (v : EmailVerification)
    (hp : s.session.pending_user_id = some uid)
    (hu : s.users.find? (fun u => u.id == uid) = some user)
    (hform : verification_form_ok code = true)
    (hfind : findActive s.records uid code = some v)
    (hvalid : v.is_valid s.now = true) :
    (verify_step code gen s).2 = .VerifiedSuccess ∧
    { v with is_used := true } ∈ (verify_step code gen s).1.records ∧
    (∀ r ∈ s.records, r.rid ≠ v.rid → r ∈ (verify_step code gen s).1.records) ∧
    { user with is_active := true, is_verified := true }
      ∈ (verify_step code gen s).1.users ∧
    (verify_step code gen s).1.session.pending_user_id = none ∧
    (verify_step code gen s).1.session.auth_user_id = some user.id ∧
    (∀ gen2 : String, verify_step code gen2 (verify_step code gen s).1
      = ((verify_step code gen s).1, .NoPendingVerification)) := by
  have hstep := verify_step_success_eq s uid user code gen v hp hu hform hfind hvalid
  obtain ⟨hmem, huid, hcode, hused⟩ := findActive_some_spec hfind
  refine ⟨by rw [hstep], ?_, ?_, ?_, by rw [hstep], by rw [hstep], ?_⟩
  · rw [hstep]
    exact List.mem_map.mpr ⟨v, hmem, by simp⟩
  · intro r hr hne
    rw [hstep]
    refine List.mem_map.mpr ⟨r, hr, ?_⟩
    have : (r.rid == v.rid) = false := beq_eq_false_iff_ne.mpr hne
    simp [this]
  · rw [hstep]
    refine List.mem_map.mpr ⟨user, List.mem_of_find?_eq_some hu, by simp⟩
  · intro gen2
    rw [hstep]
    rfl

/-- Witness for C1 (amended): `alice` verifies with the issued code. -/
theorem C1_verify_success_witness :
    (verify_step "000000" "111111" sSigned).2 = .VerifiedSuccess ∧
    { rec0 with is_used := true } ∈ (verify_step "000000" "111111" sSigned).1.records ∧
    (∀ r ∈ sSigned.records, r.rid ≠ rec0.rid →
      r ∈ (verify_step "000000" "111111" sSigned).1.records) ∧
    { user0 with is_active := true, is_verified := true }
      ∈ (verify_step "000000" "111111" sSigned).1.users ∧
    (verify_step "000000" "111111" sSigned).1.session.pending_user_id = none ∧
    (verify_step "000000" "111111" sSigned).1.session.auth_user_id = some user0.id ∧
    (∀ gen2 : String, verify_step "000000" gen2 (verify_step "000000" "111111" sSigned).1
      = ((verify_step "000000" "111111" sSigned).1, .NoPendingVerification)) :=
  C1_verify_success sSigned 0 user0 "000000" "111111" rec0
    (by decide) (by decide) (by decide) (by decide) (by decide)

/-- C1 counterexample: after `alice` signs up and verifies successfully,
re-submitting the same (correct, now used) code does not fail with
`InvalidOrExpiredCode` as the claim states: the success cleared the
session's pending identifier, so the second attempt fails with
`NoPendingVerification` (redirect to sign-up) before any code lookup. -/
theorem C1_counterexample :
    (verify_step "000000" "111111" sSigned).2 = .VerifiedSuccess ∧
    (verify_step "000000" "111111" (verify_step "000000" "111111" sSigned).1).2
      = .NoPendingVerification ∧
    (verify_step "000000" "111111" (verify_step "000000" "111111" sSigned).1).2
      ≠ .InvalidOrExpiredCode := by
  refine ⟨by decide, by decide, by decide⟩

/-- C6: on a verify request with an existing pending account and a
well-formed submitted code, if `findActive` finds no unused matching
record, or the record it finds is invalid (used, or not strictly before
its expiry), the request returns `InvalidOrExpiredCode` and the state —
in particular every record's `used` flag, every account's flags and the
session's pending identifier — is exactly unchanged, so the user may
resubmit. -/
theorem C6_verify_failure (s : SystemState) (uid : UserId) (user : User)
    (code gen : String)
    (hp : s.session.pending_user_id = some uid)
    (hu : s.users.find? (fun u => u.id == uid) = some user)
    (hform : verification_form_ok code = true)
    (hfail : findActive s.records uid code = none ∨
      ∃ v, findActive s.records uid code = some v ∧ v.is_valid s.now = false) :
    verify_step code gen s = (s, .InvalidOrExpiredCode) := by
  unfold verify_step
  rw [hp]
  rcases hfail with hnone | ⟨v, hsome, hinv⟩
  · simp only [hu, hform, if_true, hnone]
  · simp only [hu, hform, if_true, hsome, hinv]
    simp

/-- Witness for C6: submitting a wrong (unissued) code right after
sign-up changes nothing and reports `InvalidOrExpiredCode`. -/
theorem C6_verify_failure_witness :
    verify_step "999999" "111111" sSigned = (sSigned, .InvalidOrExpiredCode) :=
  C6_verify_failure sSigned 0 user0 "999999" "111111"
    (by decide) (by decide) (by decide) (Or.inl (by decide))

/-- C7: if some unused record of the pending account carries the
submitted code, validation selects a matching unused record of maximal
creation time (the most recently created match), and on success only
that record is marked used: every other record is carried over to the
new store unchanged, keeping its `used` flag. -/
theorem C7_most_recent_match (s : SystemState) (uid : UserId) (user : User)
    (code gen : String) (v : EmailVerification)
    (hp : s.session.pending_user_id = some uid)
    (hu : s.users.find? (fun u => u.id == uid) = some user)
    (hform : verification_form_ok code = true)
    (hmem : v ∈ s.records) (hvuid : v.user_id = uid) (hvcode : v.code = code)
    (hvused : v.is_used = false) :
    ∃ w, findActive s.records uid code = some w ∧
      w ∈ s.records ∧ w.user_id = uid ∧ w.code = code ∧ w.is_used = false ∧
      (∀ r ∈ s.records, r.user_id = uid → r.code = code → r.is_used = false →
        r.created_at ≤ w.created_at) ∧
      (w.is_valid s.now = true →
        { w with is_used := true } ∈ (verify_step code gen s).1.records ∧
        ∀ r ∈ s.records, r.rid ≠ w.rid → r ∈ (verify_step code gen s).1.records) := by
  obtain ⟨w, hw⟩ := findActive_isSome hmem hvuid hvcode hvused
  obtain ⟨hwmem, hwuid, hwcode, hwused⟩ := findActive_some_spec hw
  refine ⟨w, hw, hwmem, hwuid, hwcode, hwused, findActive_max hw, ?_⟩
  intro hvalid
  have hstep := verify_step_success_eq s uid user code gen w hp hu hform hw hvalid
  constructor
  · rw [hstep]
    exact List.mem_map.mpr ⟨w, hwmem, by simp⟩
  · intro r hr hne
    rw [hstep]
    refine List.mem_map.mpr ⟨r, hr, ?_⟩
    have : (r.rid == w.rid) = false := beq_eq_false_iff_ne.mpr hne
    simp [this]

/-- A later, second outstanding record for `alice`'s account with the
same code (issued by a re-send), unused. -/
def rec1 : EmailVerification :=
  { rid := 1, user_id := 0, code := "000000", created_at := 5,
    expires_at := some 35, is_used := false }

/-- A state with two outstanding unused records for the pending account
carrying the same code. -/
def sTwo : SystemState :=
  { users := [user0], records := [rec0, rec1],
    session := { pending_user_id := some 0, auth_user_id := none },
    now := 6, next_id := 1, next_rid := 2 }

/-- Witness for C7 at the two-record state: lookup selects the most
recently created of the two matching records. -/
theorem C7_most_recent_match_witness :
    ∃ w, findActive sTwo.records 0 "000000" = some w ∧
      w ∈ sTwo.records ∧ w.user_id = 0 ∧ w.code = "000000" ∧ w.is_used = false ∧
      (∀ r ∈ sTwo.records, r.user_id = 0 → r.code = "000000" → r.is_used = false →
        r.created_at ≤ w.created_at) ∧
      (w.is_valid sTwo.now = true →
        { w with is_used := true } ∈ (verify_step "000000" "111111" sTwo).1.records ∧
        ∀ r ∈ sTwo.records, r.rid ≠ w.rid →
          r ∈ (verify_step "000000" "111111" sTwo).1.records) :=
  C7_most_recent_match sTwo 0 user0 "000000" "111111" rec0
    (by decide) (by decide) (by decide) (by decide) (by decide) (by decide) (by decide)

/-- Branch analysis of `verify_view`: the store is either untouched (on
any failure) or is the old store with the found record replaced by its
marked-used, re-saved version. -/
theorem verify_step_records_shape (code gen : String) (s : SystemState) :
    (verify_step code gen s).1.records = s.records ∨
    ∃ v : EmailVerification, (verify_step code gen s).1.records = s.records.map (fun r =>
      if r.rid == v.rid then
        EmailVerification.save s.now gen { v with is_used := true } else r) := by
  unfold verify_step
  split
  · exact Or.inl rfl
  · split
    · exact Or.inl rfl
    · split
      · split
        · split
          · exact Or.inr ⟨_, rfl⟩
          · exact Or.inl rfl
        · exact Or.inl rfl
      · exact Or.inl rfl

/-- Branch analysis of `verify_view` for the user rows: unchanged, or
with one user's two flags set to true. -/
theorem verify_step_users_shape (code gen : String) (s : SystemState) :
    (verify_step code gen s).1.users = s.users ∨
    ∃ uid2 : UserId, (verify_step code gen s).1.users = s.users.map (fun u =>
      if u.id == uid2 then { u with is_active := true, is_verified := true } else u) := by
  unfold verify_step
  split
  · exact Or.inl rfl
  · split
    · exact Or.inl rfl
    · split
      · split
        · split
          · exact Or.inr ⟨_, rfl⟩
          · exact Or.inl rfl
        · exact Or.inl rfl
      · exact Or.inl rfl

/-- Every branch of `login_view` leaves the verification store alone. -/
theorem login_step_records (ar : Option UserId) (s : SystemState) :
    (login_step ar s).1.records = s.records := by
  unfold login_step
  split
  · rfl
  · split
    · rfl
    · split
      · rfl
      · split
        · rfl
        · rfl

/-- Every branch of `login_view` leaves the user rows alone. -/
theorem login_step_users (ar : Option UserId) (s : SystemState) :
    (login_step ar s).1.users = s.users := by
  unfold login_step
  split
  · rfl
  · split
    · rfl
    · split
      · rfl
      · split
        · rfl
        · rfl

/-- A sign-up whose mail send succeeds only ever appends to the
verification store. -/
theorem signup_step_success_records (email username : String) (fw : Bool)
    (pick : Fin 6 → Fin 10) (s : SystemState) :
    ∃ l, (signup_step email username fw pick true s).1.records = s.records ++ l := by
  unfold signup_step
  by_cases h : s.session.auth_user_id.isSome = true
  · rw [if_pos h]
    exact ⟨[], (List.append_nil _).symm⟩
  · rw [if_neg h]
    by_cases hf : signup_form_valid email fw s = true
    · rw [if_pos hf]
      exact ⟨[_], rfl⟩
    · rw [if_neg hf]
      exact ⟨[], (List.append_nil _).symm⟩

/-- C5 counterexample: during a sign-up whose mail send fails, a
verification record is first persisted (the store at the moment
`send_mail` runs is nonempty) and then deleted by the rollback —
`user.delete()` cascades over the `on_delete=CASCADE` foreign key — so
the record does not persist through the mail-failure-rollback step and
the claim's "no operation ever deletes a verification record" is false. -/
theorem C5_counterexample :
    (signup_create "b@sydney.edu.pl" "bob" pick0 init).1.records ≠ [] ∧
    (signup_step "b@sydney.edu.pl" "bob" true pick0 false init).1.records = [] := by
  refine ⟨by decide, by decide⟩

/-- C5 (amended): no operation except the mail-failure rollback of
sign-up deletes a verification record: any record in the store survives
(same row id; expiry and use recorded only as flags) every verify
request, every login request, every logout, and every sign-up whose
mail send succeeds.  The mail-failure rollback deletes the new
account's records via the cascading foreign key. -/
theorem C5_records_persist (s : SystemState) (r : EmailVerification)
    (hr : r ∈ s.records) :
    (∀ code gen, ∃ r2 ∈ (verify_step code gen s).1.records, r2.rid = r.rid) ∧
    (∀ ar, r ∈ (login_step ar s).1.records) ∧
    (∀ email username fw pick, r ∈ (signup_step email username fw pick true s).1.records) ∧
    r ∈ (logout_step s).records := by
  refine ⟨?_, ?_, ?_, hr⟩
  · intro code gen
    rcases verify_step_records_shape code gen s with hsh | ⟨v, hsh⟩
    · exact ⟨r, hsh ▸ hr, rfl⟩
    · rw [hsh]
      refine ⟨_, List.mem_map_of_mem _ hr, ?_⟩
      by_cases hb : (r.rid == v.rid) = true
      · simp only [hb, if_true]
        show ({ v with is_used := true } : EmailVerification).rid = r.rid
        exact (beq_iff_eq.mp hb).symm
      · simp only [hb, Bool.false_eq_true, if_false]
  · intro ar
    rw [login_step_records]
    exact hr
  · intro email username fw pick
    obtain ⟨l, hl⟩ := signup_step_success_records email username fw pick s
    rw [hl]
    exact List.mem_append_left _ hr

/-- Witness for C5 (amended), at the record issued by `alice`'s
sign-up. -/
theorem C5_records_persist_witness :
    (∀ code gen, ∃ r2 ∈ (verify_step code gen sSigned).1.records, r2.rid = rec0.rid) ∧
    (∀ ar, rec0 ∈ (login_step ar sSigned).1.records) ∧
    (∀ email username fw pick,
      rec0 ∈ (signup_step email username fw pick true sSigned).1.records) ∧
    rec0 ∈ (logout_step sSigned).records :=
  C5_records_persist sSigned rec0 (by decide)

/-- Unfolding of the account-flag invariant. -/
theorem accountsConsistent_iff (s : SystemState) :
    accountsConsistent s = true ↔ ∀ u ∈ s.users, u.is_active = u.is_verified := by
  unfold accountsConsistent
  rw [List.all_eq_true]
  constructor
  · intro h u hu
    exact beq_iff_eq.mp (h u hu)
  · intro h u hu
    exact beq_iff_eq.mpr (h u hu)

/-- Any user row present after a sign-up request is an old row or the
new row, which is created inactive and unverified. -/
theorem signup_step_users_shape (email username : String) (fw : Bool)
    (pick : Fin 6 → Fin 10) (mail : Bool) (s : SystemState) (u : User)
    (hu : u ∈ (signup_step email username fw pick mail s).1.users) :
    u ∈ s.users ∨ (u.is_active = false ∧ u.is_verified = false) := by
  unfold signup_step at hu
  split at hu
  · exact Or.inl hu
  · split at hu
    · split at hu
      · have hu2 : u ∈ s.users ++ [(⟨s.next_id, email, username, false, false⟩ : User)] := hu
        rcases List.mem_append.mp hu2 with h1 | h1
        · exact Or.inl h1
        · rw [List.mem_singleton] at h1
          subst h1
          exact Or.inr ⟨rfl, rfl⟩
      · have hu2 : u ∈ (s.users ++ [(⟨s.next_id, email, username, false, false⟩ : User)]).filter
            (fun u => u.id != s.next_id) := hu
        have hu3 := List.mem_of_mem_filter hu2
        rcases List.mem_append.mp hu3 with h1 | h1
        · exact Or.inl h1
        · rw [List.mem_singleton] at h1
          subst h1
          exact Or.inr ⟨rfl, rfl⟩
    · exact Or.inl hu

/-- Each request (and the passage of time) preserves the account-flag
invariant. -/
theorem step_preserves_consistent {s s2 : SystemState} (hs : Step s s2)
    (h : accountsConsistent s = true) : accountsConsistent s2 = true := by
  rw [accountsConsistent_iff] at h ⊢
  cases hs with
  | signup email username fw pick mail =>
    intro u hu
    rcases signup_step_users_shape email username fw pick mail s u hu with h1 | ⟨h1, h2⟩
    · exact h u h1
    · rw [h1, h2]
  | verify code gen =>
    intro u hu
    rcases verify_step_users_shape code gen s with hsh | ⟨uid2, hsh⟩
    · rw [hsh] at hu
      exact h u hu
    · rw [hsh] at hu
      rcases List.mem_map.mp hu with ⟨u0, hu0, rfl⟩
      by_cases hb : (u0.id == uid2) = true
      · simp [hb]
      · simp [hb]
        exact h u0 hu0
  | login ar =>
    intro u hu
    rw [login_step_users] at hu
    exact h u hu
  | logout => exact fun u hu => h u hu
  | tick d => exact fun u hu => h u hu

/-- C9: in every state reachable from the empty store, every account
satisfies `is_active = is_verified`: sign-up creates accounts with both
flags false, successful verification sets both true in the same step,
and no operation sets one flag without the other — so no reachable
state contains an account that is active but unverified. -/
theorem C9_active_iff_verified (s : SystemState) (h : Reachable s) :
    accountsConsistent s = true := by
  induction h with
  | init => decide
  | step hr hstep ih => exact step_preserves_consistent hstep ih

/-- Witness for C9 at the reachable state after `alice`'s sign-up. -/
theorem C9_active_iff_verified_witness : accountsConsistent sSigned = true :=
  C9_active_iff_verified sSigned
    (Reachable.step Reachable.init
      (Step.signup "a@sydney.edu.pl" "alice" true pick0 true init))

end DjangoDemo
